import Mathlib

/-!
Verification development for the PGRB regime-based backtesting engine
(src/backend/engine.py and src/backend/models.py).

The engine's data model and operations are embedded shallowly:
* Python floats become exact rationals.
* Dates become natural-number indices.
* The price provider becomes a parameter of type String -> Nat -> Option Rat;
  Python truthiness of a float price (None and 0.0 are falsy) is modelled
  explicitly at every use site.
* Python dicts keyed by ticker become association lists with dict update and
  delete acting on the first matching entry; dicts in the source have unique
  keys, so this coincides with dict semantics.
* Pandas sample statistics (ddof = 1) that produce NaN for fewer than two
  observations are modelled with Option, NaN becoming none.
-/

set_option maxHeartbeats 1000000

namespace PGRB

/-- The four macro regimes, in the fixed iteration order of the Python dict
literal in BacktestEngine._check_regime_change. -/
inductive Regime where
  | GOLDILOCKS
  | REFLATION
  | INFLATION
  | DEFLATION
deriving DecidableEq, Repr

/-- Position in models.py: ticker, shares, volume-weighted average cost,
latest observed price. -/
structure Position where
  ticker : String
  shares : ℚ
  avg_cost : ℚ
  current_price : ℚ
deriving DecidableEq, Repr

/-- Position.market_value: shares times latest observed price. -/
def Position.market_value (p : Position) : ℚ :=
  p.shares * p.current_price

/-- Trade record in models.py. -/
structure Trade where
  date : ℕ
  action : String
  ticker : String
  shares : ℚ
  price : ℚ
  value : ℚ
  regime : Regime
  reason : String
deriving DecidableEq, Repr

/-- GridDataRow in models.py: one day of 42 Macro signal data.  The vams
dict becomes an association list. -/
structure GridDataRow where
  date : ℕ
  sum_confirming_markets : ℤ
  goldilocks_confirming : ℤ
  reflation_confirming : ℤ
  inflation_confirming : ℤ
  deflation_confirming : ℤ
  market_regime : String
  risk_regime : String
  vams : List (String × ℤ)
deriving DecidableEq, Repr

/-- DrawdownEvent in models.py. -/
structure DrawdownEvent where
  drawdown_pct : ℚ
  start_date : ℕ
  low_date : ℕ
  end_date : Option ℕ
  length_days : ℕ
  recovery_days : Option ℕ
deriving DecidableEq, Repr

/-- The mutable state of BacktestEngine: current regime, open positions
(the Python dict keyed by ticker, as an association list in insertion
order), cash, SHV reserve share count, and the append-only trade log. -/
structure EngineState where
  current_regime : Regime
  positions : List Position
  cash : ℚ
  shv_position : ℚ
  trades : List Trade
deriving DecidableEq, Repr

/-- A price provider: priceOf(instrument, date), None when unavailable. -/
abbrev PriceFn := String → ℕ → Option ℚ

/-- Dict lookup self.positions[ticker]: first entry with the given ticker. -/
def lookupPos : List Position → String → Option Position
  | [], _ => none
  | p :: ps, t => if p.ticker = t then some p else lookupPos ps t

/-- Dict update self.positions[ticker] = q: replace the first entry with the
given ticker, keeping its place. -/
def replacePos : List Position → String → Position → List Position
  | [], _, _ => []
  | p :: ps, t, q => if p.ticker = t then q :: ps else p :: replacePos ps t q

/-- Dict delete del self.positions[ticker]: drop the first entry with the
given ticker. -/
def removePos : List Position → String → List Position
  | [], _ => []
  | p :: ps, t => if p.ticker = t then ps else p :: removePos ps t

/-- The SHV price used by the engine: self._get_price("SHV", date) or 110.0.
Python or treats both None and 0.0 as falsy. -/
def shv_price_on (price : PriceFn) (d : ℕ) : ℚ :=
  match price "SHV" d with
  | some q => if q = 0 then 110 else q
  | none => 110

/-- The contribution of one position to _calculate_portfolio_value: the
position counts only when the day's fetched price is truthy, and then at
shares times that fresh price. -/
def position_day_value (price : PriceFn) (d : ℕ) (p : Position) : ℚ :=
  match price p.ticker d with
  | some q => if q = 0 then 0 else p.shares * q
  | none => 0

/-- The price-refresh in the daily loop and in _calculate_portfolio_value:
position.current_price = price when the fetched price is truthy. -/
def mark_position (price : PriceFn) (d : ℕ) (p : Position) : Position :=
  match price p.ticker d with
  | some q => if q = 0 then p else { p with current_price := q }
  | none => p

/-- Sum of market values of a list of positions. -/
def mvSum (l : List Position) : ℚ :=
  (l.map Position.market_value).sum

/-- BacktestEngine._calculate_portfolio_value: cash, plus the reserve at the
day's SHV price (fallback 110) when the reserve holding is positive, plus
each position's shares times the day's fetched price when that price is
truthy -- positions without a truthy fresh quote contribute nothing. -/
def calculate_portfolio_value (price : PriceFn) (s : EngineState) (d : ℕ) : ℚ :=
  s.cash
    + (if 0 < s.shv_position then s.shv_position * shv_price_on price d else 0)
    + (s.positions.map (position_day_value price d)).sum

/-- Marked-price total wealth of the ledger: cash plus the reserve at the
given reserve price plus the positions at their marked prices.  This is the
quantity the self-financing claims are about. -/
def markedValue (s : EngineState) (shvPrice : ℚ) : ℚ :=
  s.cash + s.shv_position * shvPrice + mvSum s.positions

/-- BacktestEngine._execute_trade.  Every call appends one Trade with
absolute share and value magnitudes; a buy merges into the existing
position with blended average cost (or creates a new one) and debits cash;
a sell shrinks the position, dropping it at or below 0.001 shares, and
credits cash. -/
def execute_trade (s : EngineState) (d : ℕ) (action ticker : String)
    (sh pr : ℚ) (reason : String) : EngineState :=
  let value := sh * pr
  let tr : Trade :=
    { date := d, action := action, ticker := ticker, shares := |sh|,
      price := pr, value := |value|, regime := s.current_regime, reason := reason }
  if action = "BUY" then
    match lookupPos s.positions ticker with
    | some old =>
        let total_shares := old.shares + sh
        let total_cost := old.shares * old.avg_cost + sh * pr
        let avg := if 0 < total_shares then total_cost / total_shares else pr
        { s with trades := s.trades ++ [tr],
                 positions := replacePos s.positions ticker
                   { ticker := ticker, shares := total_shares,
                     avg_cost := avg, current_price := pr },
                 cash := s.cash - value }
    | none =>
        { s with trades := s.trades ++ [tr],
                 positions := s.positions ++
                   [{ ticker := ticker, shares := sh,
                      avg_cost := pr, current_price := pr }],
                 cash := s.cash - value }
  else
    match lookupPos s.positions ticker with
    | some old =>
        if old.shares - sh ≤ 1 / 1000 then
          { s with trades := s.trades ++ [tr],
                   positions := removePos s.positions ticker,
                   cash := s.cash + value }
        else
          { s with trades := s.trades ++ [tr],
                   positions := replacePos s.positions ticker
                     { old with shares := old.shares - sh },
                   cash := s.cash + value }
    | none => { s with trades := s.trades ++ [tr], cash := s.cash + value }

/-- The liquidation price in _liquidate_all:
self._get_price(ticker, date) or position.current_price. -/
def liq_price (price : PriceFn) (p : Position) (d : ℕ) : ℚ :=
  match price p.ticker d with
  | some q => if q = 0 then p.current_price else q
  | none => p.current_price

/-- The loop of _liquidate_all over the snapshot list(self.positions.items()):
sell each position entirely at the day's price or its last known price. -/
def sell_all_loop (price : PriceFn) (d : ℕ) (reason : String) :
    List Position → EngineState → EngineState
  | [], s => s
  | p :: ps, s =>
      sell_all_loop price d reason ps
        (execute_trade s d "SELL" p.ticker p.shares (liq_price price p d) reason)

/-- BacktestEngine._liquidate_all: sell every position, then convert a
positive reserve holding back to cash at the day's SHV price, without
logging a trade for the reserve conversion. -/
def liquidate_all (price : PriceFn) (s : EngineState) (d : ℕ)
    (reason : String) : EngineState :=
  let s1 := sell_all_loop price d reason s.positions s
  if 0 < s1.shv_position then
    { s1 with cash := s1.cash + s1.shv_position * shv_price_on price d,
              shv_position := 0 }
  else s1

/-- The loop of _allocate_to_regime over the regime's (ticker, weight)
pairs: skip crypto, buy target capital times weight at the day's price
when the price exists and is positive and the share count exceeds 0.001. -/
def alloc_buys (price : PriceFn) (d : ℕ) (capital : ℚ) (reason : String) :
    List (String × ℚ) → EngineState → EngineState
  | [], s => s
  | tw :: rest, s =>
      alloc_buys price d capital reason rest
        (if tw.1 = "Bitcoin" ∨ tw.1 = "Ethereum" then s
         else
           match price tw.1 d with
           | some p =>
               if 0 < p then
                 if 1 / 1000 < capital * tw.2 / p then
                   execute_trade s d "BUY" tw.1 (capital * tw.2 / p) p reason
                 else s
               else s
           | none => s)

/-- BacktestEngine._allocate_to_regime, with the risk profile's allocation
table passed as a function from regime to its (ticker, weight) list. -/
def allocate_to_regime (price : PriceFn) (profile : Regime → List (String × ℚ))
    (s : EngineState) (d : ℕ) (regime : Regime) (capital : ℚ)
    (reason : String) : EngineState :=
  alloc_buys price d capital reason (profile regime) s

/-- Display name of a regime, as used inside reason strings. -/
def regimeName : Regime → String
  | .GOLDILOCKS => "GOLDILOCKS"
  | .REFLATION => "REFLATION"
  | .INFLATION => "INFLATION"
  | .DEFLATION => "DEFLATION"

/-- BacktestEngine._handle_risk_off_transition: compute the portfolio value
(which refreshes marks), liquidate everything, put value/4 into the SHV
reserve at the day's SHV price without logging a trade, overwrite cash with
3/4 of the value and allocate that capital to the new regime. -/
def handle_risk_off_transition (price : PriceFn)
    (profile : Regime → List (String × ℚ)) (s : EngineState) (d : ℕ)
    (newRegime : Regime) : EngineState :=
  let pv := calculate_portfolio_value price s d
  let s1 := { s with positions := s.positions.map (mark_position price d) }
  let s2 := liquidate_all price s1 d ("Regime change to " ++ regimeName newRegime)
  let shvPr := shv_price_on price d
  let s3 := { s2 with shv_position := pv * (1 / 4) / shvPr }
  let s4 := { s3 with cash := pv * (3 / 4) }
  allocate_to_regime price profile s4 d newRegime (pv * (3 / 4))
    ("Allocated to " ++ regimeName newRegime)

/-- BacktestEngine._handle_risk_on_transition: compute the portfolio value
(refreshing marks), liquidate everything including the reserve, and
allocate all resulting cash to the new regime. -/
def handle_risk_on_transition (price : PriceFn)
    (profile : Regime → List (String × ℚ)) (s : EngineState) (d : ℕ)
    (newRegime : Regime) : EngineState :=
  let s1 := { s with positions := s.positions.map (mark_position price d) }
  let s2 := liquidate_all price s1 d ("Regime change to " ++ regimeName newRegime)
  allocate_to_regime price profile s2 d newRegime s2.cash
    ("Allocated to " ++ regimeName newRegime)

/-- The same-risk-stance branch of the regime-change handling in run:
liquidate everything and reallocate all cash into the new regime. -/
def handle_same_stance (price : PriceFn)
    (profile : Regime → List (String × ℚ)) (s : EngineState) (d : ℕ)
    (newRegime : Regime) : EngineState :=
  let s1 := { s with positions := s.positions.map (mark_position price d) }
  let s2 := liquidate_all price s1 d ("Regime change to " ++ regimeName newRegime)
  allocate_to_regime price profile s2 d newRegime s2.cash
    ("Allocated to " ++ regimeName newRegime)

/-- Per-regime confirming count from a GridDataRow, matching the dict
literal in _check_regime_change. -/
def confirming (row : GridDataRow) : Regime → ℤ
  | .GOLDILOCKS => row.goldilocks_confirming
  | .REFLATION => row.reflation_confirming
  | .INFLATION => row.inflation_confirming
  | .DEFLATION => row.deflation_confirming

/-- One step of Python max(confirmings, key=confirmings.get): keep the
incumbent unless the challenger's count is strictly greater. -/
def max_pick (row : GridDataRow) (best r : Regime) : Regime :=
  if confirming row best < confirming row r then r else best

/-- Python max over the confirmings dict in its fixed iteration order
GOLDILOCKS, REFLATION, INFLATION, DEFLATION; ties keep the earlier key. -/
def maxCandidate (row : GridDataRow) : Regime :=
  max_pick row (max_pick row (max_pick row Regime.GOLDILOCKS Regime.REFLATION)
    Regime.INFLATION) Regime.DEFLATION

/-- OPPOSING_REGIMES table. -/
def opposing : Regime → Regime
  | .GOLDILOCKS => .DEFLATION
  | .DEFLATION => .GOLDILOCKS
  | .REFLATION => .INFLATION
  | .INFLATION => .REFLATION

/-- RISK_ON_REGIMES membership. -/
def is_risk_on : Regime → Bool
  | .GOLDILOCKS => true
  | .REFLATION => true
  | .INFLATION => false
  | .DEFLATION => false

/-- BacktestEngine._check_regime_change: no change unless the total
confirming count exceeds 59; candidate is the argmax of confirming counts
(ties by iteration order); no change if the candidate is current; change
only if candidate minus its opposing regime's count strictly exceeds 2. -/
def check_regime_change (row : GridDataRow) (current : Regime) : Option Regime :=
  if row.sum_confirming_markets ≤ 59 then none
  else if maxCandidate row = current then none
  else if 2 < confirming row (maxCandidate row)
      - confirming row (opposing (maxCandidate row)) then some (maxCandidate row)
  else none

/-- BacktestEngine._check_xlk_vams_exit: the XLK vams signal (default -2)
is at least 0 and the reserve holding is positive. -/
def check_xlk_vams_exit (row : GridDataRow) (s : EngineState) : Bool :=
  decide (0 ≤ ((row.vams.lookup "XLK").getD (-2))) && decide (0 < s.shv_position)

/-- The reinvestment loop of the XLK VAMS exit rule, over the snapshot of
the positions: buy returned_cash times the position's pre-rule weight at
the day's price when that price is truthy. -/
def reinvest_loop (price : PriceFn) (d : ℕ) (returnedCash totalEquity : ℚ) :
    List Position → EngineState → EngineState
  | [], s => s
  | p :: rest, s =>
      reinvest_loop price d returnedCash totalEquity rest
        (match price p.ticker d with
         | some pr =>
             if pr = 0 then s
             else execute_trade s d "BUY" p.ticker
               (returnedCash * (p.market_value / totalEquity) / pr) pr
               "XLK VAMS improved - reinvesting cash"
         | none => s)

/-- The body of the XLK VAMS exit rule in run (lines 295-309): zero the
reserve holding and, when total equity is positive, reinvest the reserve
proceeds pro-rata across the open positions.  Note that the proceeds are
never credited to cash. -/
def xlk_vams_exit_step (price : PriceFn) (s : EngineState) (d : ℕ) : EngineState :=
  if 0 < s.shv_position then
    let shvPr := shv_price_on price d
    let returnedCash := s.shv_position * shvPr
    let s1 := { s with shv_position := 0 }
    let totalEquity := mvSum s1.positions
    if 0 < totalEquity then
      reinvest_loop price d returnedCash totalEquity s1.positions s1
    else s1
  else s

/-- One iteration of the main loop in run, minus equity-curve recording:
refresh position marks, check for a regime change and dispatch to the
matching transition handler, else apply the XLK VAMS exit rule when the
current regime is DEFLATION and its condition holds. -/
def day_step (price : PriceFn) (profile : Regime → List (String × ℚ))
    (s : EngineState) (row : GridDataRow) (d : ℕ) : EngineState :=
  let s0 := { s with positions := s.positions.map (mark_position price d) }
  match check_regime_change row s0.current_regime with
  | some newRegime =>
      let s1 :=
        if is_risk_on s0.current_regime && !(is_risk_on newRegime) then
          handle_risk_off_transition price profile s0 d newRegime
        else if !(is_risk_on s0.current_regime) && is_risk_on newRegime then
          handle_risk_on_transition price profile s0 d newRegime
        else
          handle_same_stance price profile s0 d newRegime
      { s1 with current_regime := newRegime }
  | none =>
      if s0.current_regime = Regime.DEFLATION && check_xlk_vams_exit row s0 then
        xlk_vams_exit_step price s0 d
      else s0

/-! ## Performance analytics (_calculate_results excerpts) -/

/-- Simple percentage-change daily returns of a value series
(pd.Series(values).pct_change().dropna()). -/
def daily_returns (values : List ℚ) : List ℚ :=
  (values.zip values.tail).map (fun ab => (ab.2 - ab.1) / ab.1)

/-- Arithmetic mean of a list of rationals. -/
def listMean (xs : List ℚ) : ℚ :=
  xs.sum / (xs.length : ℚ)

/-- Pandas sample variance with ddof = 1 (as a rational; meaningful for
lists of length at least two). -/
def sampleVar (xs : List ℚ) : ℚ :=
  ((xs.map (fun x => (x - listMean xs) ^ 2)).sum) / ((xs.length : ℚ) - 1)

/-- Pandas sample covariance with ddof = 1 over two aligned series. -/
def sampleCov (xs ys : List ℚ) : ℚ :=
  (((xs.zip ys).map (fun ab => (ab.1 - listMean xs) * (ab.2 - listMean ys))).sum)
    / ((xs.length : ℚ) - 1)

/-- Pandas Series.std (ddof = 1): NaN for fewer than two observations,
modelled as none; otherwise the square root (supplied as a function
parameter, since floats take a numeric square root) of the sample
variance. -/
def sampleStd (sq : ℚ → ℚ) (xs : List ℚ) : Option ℚ :=
  if 2 ≤ xs.length then some (sq (sampleVar xs)) else none

/-- Line 365 of engine.py:
std_dev = daily_returns.std() * np.sqrt(252) if len(daily_returns) > 0 else 0.15.
A NaN standard deviation propagates through the product, so the reported
annualized volatility is NaN (none) whenever the series is nonempty but has
fewer than two observations. -/
def annualized_vol (sq : ℚ → ℚ) (xs : List ℚ) : Option ℚ :=
  if 0 < xs.length then (sampleStd sq xs).map (fun v => v * sq 252)
  else some (15 / 100)

/-- Lines 393-407 of engine.py: beta from the covariance of the paired
(truncated to common length) daily returns over the variance of the
benchmark daily returns, but only when more than one paired observation
exists and the variance is positive; 1 in every degenerate case. -/
def betaOf (port bench : List ℚ) : ℚ :=
  if 0 < port.length ∧ 0 < bench.length then
    let n := min port.length bench.length
    let b := bench.take n
    if 1 < n then
      if 0 < sampleVar b then sampleCov (port.take n) b / sampleVar b else 1
    else 1
  else 1

/-- Lines 393-407 of engine.py: alpha via CAPM with risk-free rate 0.02
when beta was computed from at least two paired observations, 0 in every
degenerate case. -/
def alphaOf (port bench : List ℚ) (annRet benchAnn : ℚ) : ℚ :=
  if 0 < port.length ∧ 0 < bench.length then
    if 1 < min port.length bench.length then
      annRet - (1 / 50 + betaOf port bench * (benchAnn - 1 / 50))
    else 0
  else 0

/-! ## Drawdown detector (_find_top_drawdowns) -/

/-- Scanner state of _find_top_drawdowns. -/
structure DDScan where
  events : List DrawdownEvent
  peak : ℚ
  peakIdx : ℕ
  inDD : Bool
  ddStartIdx : ℕ
  ddLowIdx : ℕ
  ddLow : ℚ
deriving DecidableEq, Repr

/-- One iteration of the scanning loop in _find_top_drawdowns. -/
def dd_step (dates : List ℕ) (st : DDScan) (iv : ℕ × ℚ) : DDScan :=
  if st.peak ≤ iv.2 then
    let events :=
      if st.inDD then
        st.events ++
          [{ drawdown_pct := (st.peak - st.ddLow) / st.peak,
             start_date := dates.getD st.ddStartIdx 0,
             low_date := dates.getD st.ddLowIdx 0,
             end_date := some (dates.getD iv.1 0),
             length_days := iv.1 - st.ddStartIdx,
             recovery_days := some (iv.1 - st.ddLowIdx) }]
      else st.events
    { events := events, peak := iv.2, peakIdx := iv.1, inDD := false,
      ddStartIdx := st.ddStartIdx, ddLowIdx := st.ddLowIdx, ddLow := st.ddLow }
  else
    if st.inDD then
      if iv.2 < st.ddLow then { st with ddLow := iv.2, ddLowIdx := iv.1 } else st
    else
      { st with inDD := true, ddStartIdx := st.peakIdx, ddLow := iv.2,
                ddLowIdx := iv.1 }

/-- Stable insertion keeping the list sorted descending by drawdown
percentage, matching Python list.sort(key=..., reverse=True). -/
def insertByPct (e : DrawdownEvent) : List DrawdownEvent → List DrawdownEvent
  | [] => [e]
  | x :: xs =>
      if x.drawdown_pct ≤ e.drawdown_pct then e :: x :: xs
      else x :: insertByPct e xs

/-- Stable sort descending by drawdown percentage. -/
def sortByPctDesc : List DrawdownEvent → List DrawdownEvent
  | [] => []
  | x :: xs => insertByPct x (sortByPctDesc xs)

/-- BacktestEngine._find_top_drawdowns: single forward pass tracking the
running peak; an event closes at the first value reaching the peak again,
an event still open at the end is emitted with no end date and no recovery
length; events are sorted descending by drawdown percentage and the top n
are kept. -/
def find_top_drawdowns (values : List ℚ) (dates : List ℕ) (n : ℕ) :
    List DrawdownEvent :=
  let init : DDScan :=
    { events := [], peak := values.headD 0, peakIdx := 0, inDD := false,
      ddStartIdx := 0, ddLowIdx := 0, ddLow := 0 }
  let st := values.enum.foldl (dd_step dates) init
  let evs :=
    if st.inDD then
      st.events ++
        [{ drawdown_pct := (st.peak - st.ddLow) / st.peak,
           start_date := dates.getD st.ddStartIdx 0,
           low_date := dates.getD st.ddLowIdx 0,
           end_date := none,
           length_days := values.length - st.ddStartIdx,
           recovery_days := none }]
    else st.events
  (sortByPctDesc evs).take n

/-! ## Spec-side model for the valuation claim -/

/-- The valuation formula as the specification words it (section 4.3):
cash, plus reserve shares times the reserve price (fixed fallback when
unavailable), plus every position at the day's fetched price or, when no
fresh quote is available, at its last known price.  Written from the spec
for comparison with calculate_portfolio_value. -/
def spec_valuation_model (price : PriceFn) (s : EngineState) (d : ℕ) : ℚ :=
  s.cash + s.shv_position * shv_price_on price d
    + (s.positions.map (fun p =>
        match price p.ticker d with
        | some q => if q = 0 then p.shares * p.current_price else p.shares * q
        | none => p.shares * p.current_price)).sum

/-- Whether a position has a truthy fresh quote on the day. -/
def has_fresh_quote (price : PriceFn) (d : ℕ) (p : Position) : Bool :=
  match price p.ticker d with
  | some q => decide (q ≠ 0)
  | none => false

/-! ## Helper lemmas about the ledger structure -/

theorem mvSum_nil : mvSum [] = 0 := rfl

theorem mvSum_cons (p : Position) (l : List Position) :
    mvSum (p :: l) = p.market_value + mvSum l := by
  simp [mvSum]

theorem mvSum_append (l1 l2 : List Position) :
    mvSum (l1 ++ l2) = mvSum l1 + mvSum l2 := by
  simp [mvSum]

theorem lookupPos_mem {l : List Position} {t : String} {q : Position}
    (h : lookupPos l t = some q) : q ∈ l ∧ q.ticker = t := by
  induction l with
  | nil => simp [lookupPos] at h
  | cons p ps ih =>
      by_cases hpt : p.ticker = t
      · simp [lookupPos, hpt] at h
        subst h
        exact ⟨List.mem_cons_self _ _, hpt⟩
      · simp [lookupPos, hpt] at h
        rcases ih h with ⟨h1, h2⟩
        exact ⟨List.mem_cons_of_mem _ h1, h2⟩

theorem mvSum_replacePos {l : List Position} {t : String} {old : Position}
    (q : Position) (h : lookupPos l t = some old) :
    mvSum (replacePos l t q) = mvSum l - old.market_value + q.market_value := by
  induction l with
  | nil => simp [lookupPos] at h
  | cons p ps ih =>
      by_cases hpt : p.ticker = t
      · simp [lookupPos, hpt] at h
        subst h
        simp [replacePos, hpt, mvSum_cons]
        ring
      · simp [lookupPos, hpt] at h
        simp [replacePos, hpt, mvSum_cons, ih h]
        ring

theorem mvSum_removePos {l : List Position} {t : String} {old : Position}
    (h : lookupPos l t = some old) :
    mvSum (removePos l t) = mvSum l - old.market_value := by
  induction l with
  | nil => simp [lookupPos] at h
  | cons p ps ih =>
      by_cases hpt : p.ticker = t
      · simp [lookupPos, hpt] at h
        subst h
        simp [removePos, hpt, mvSum_cons]
      · simp [lookupPos, hpt] at h
        simp [removePos, hpt, mvSum_cons, ih h]
        ring

theorem mem_replacePos {l : List Position} {t : String} {q new : Position}
    (h : q ∈ replacePos l t new) : q ∈ l ∨ q = new := by
  induction l with
  | nil => simp [replacePos] at h
  | cons p ps ih =>
      by_cases hpt : p.ticker = t
      · simp [replacePos, hpt] at h
        rcases h with h | h
        · right; exact h
        · left; exact List.mem_cons_of_mem _ h
      · simp [replacePos, hpt] at h
        rcases h with h | h
        · left; simp [h]
        · rcases ih h with h1 | h1
          · left; exact List.mem_cons_of_mem _ h1
          · right; exact h1

theorem execute_trade_trades (s : EngineState) (d : ℕ) (a t : String)
    (sh pr : ℚ) (r : String) :
    (execute_trade s d a t sh pr r).trades = s.trades ++
      [{ date := d, action := a, ticker := t, shares := |sh|, price := pr,
         value := |sh * pr|, regime := s.current_regime, reason := r }] := by
  unfold execute_trade
  split
  · split <;> rfl
  · split
    · split <;> rfl
    · rfl

theorem execute_trade_shv (s : EngineState) (d : ℕ) (a t : String)
    (sh pr : ℚ) (r : String) :
    (execute_trade s d a t sh pr r).shv_position = s.shv_position := by
  unfold execute_trade
  split
  · split <;> rfl
  · split
    · split <;> rfl
    · rfl

theorem execute_trade_regime (s : EngineState) (d : ℕ) (a t : String)
    (sh pr : ℚ) (r : String) :
    (execute_trade s d a t sh pr r).current_regime = s.current_regime := by
  unfold execute_trade
  split
  · split <;> rfl
  · split
    · split <;> rfl
    · rfl

theorem shv_price_on_ne_zero (price : PriceFn) (d : ℕ) :
    shv_price_on price d ≠ 0 := by
  unfold shv_price_on
  split
  · split
    · norm_num
    · assumption
  · norm_num

/-! ## Claim C1: the XLK VAMS deflation-exit rule destroys the reserve value -/

/-- Concrete price table for the failing input of claim C1. -/
def c1Price : PriceFn := fun t _ =>
  if t = "SHV" then some 110 else if t = "TLT" then some 100 else none

/-- Concrete daily record for the failing input of claim C1: total
confirming count 0 (no regime change possible) and XLK vams signal 0. -/
def c1Row : GridDataRow :=
  { date := 0, sum_confirming_markets := 0, goldilocks_confirming := 0,
    reflation_confirming := 0, inflation_confirming := 0,
    deflation_confirming := 0, market_regime := "DEFLATION",
    risk_regime := "RISK OFF", vams := [("XLK", 0)] }

/-- Concrete engine state for the failing input of claim C1: regime
DEFLATION, one TLT position worth 100, one SHV share worth 110, no cash. -/
def c1State : EngineState :=
  { current_regime := .DEFLATION,
    positions := [{ ticker := "TLT", shares := 1, avg_cost := 100,
                    current_price := 100 }],
    cash := 0, shv_position := 1, trades := [] }

/-- Empty allocation profile (unused on a day with no regime change). -/
def c1Profile : Regime → List (String × ℚ) := fun _ => []

/-- Claim C1: on a simulated day with no regime change, active regime
DEFLATION, non-zero reserve and XLK momentum signal at least 0, the claim
says the engine liquidates the reserve to cash, reinvests it pro-rata, and
total portfolio value is preserved.  The code never credits the liquidated
reserve proceeds to cash (engine.py lines 295-309 compute returned_cash
but omit adding it to self.cash) while the reinvestment buys still debit
cash, so the total drops by exactly the reserve value: on the concrete
failing input the value before the rule is 210 and the value after is 100,
the reserve value 110 having been destroyed.  This contradicts the code's
own stated intent ("cash returns", "returning cash to portfolio"), so the
code, not the claim, is wrong. -/
theorem claim_C1_reserve_value_destroyed :
    check_regime_change c1Row c1State.current_regime = none
    ∧ check_xlk_vams_exit c1Row c1State = true
    ∧ calculate_portfolio_value c1Price c1State 0 = 210
    ∧ calculate_portfolio_value c1Price (day_step c1Price c1Profile c1State c1Row 0) 0 = 100 := by
  refine ⟨by decide, by decide,
    by norm_num +decide [calculate_portfolio_value, c1State, c1Price, position_day_value,
      shv_price_on, mvSum, Position.market_value], ?_⟩
  norm_num +decide [day_step, c1State, c1Row, c1Price, c1Profile, check_regime_change,
    maxCandidate, max_pick, confirming, opposing, check_xlk_vams_exit,
    mark_position, xlk_vams_exit_step, reinvest_loop, execute_trade, lookupPos,
    replacePos, removePos, shv_price_on, mvSum, Position.market_value,
    calculate_portfolio_value, position_day_value]

/-! ## Claim C6: drawdown detector on [100, 90, 80, 95, 110, 70] -/

/-- Claim C6: on the value sequence [100, 90, 80, 95, 110, 70] the detector
reports exactly two events: one closed event with peak 100 and trough 80
(drawdown 1/5 = 20 percent), closed at the 110 point (index 4, not the 95
point at index 3), and one open event from peak 110 (index 4) with trough
70 (index 5), no end date and no recovery length; returned sorted
descending by drawdown percentage (4/11 before 1/5). -/
theorem claim_C6_drawdown_roundtrip :
    find_top_drawdowns [100, 90, 80, 95, 110, 70] [0, 1, 2, 3, 4, 5] 5 =
      [{ drawdown_pct := 4 / 11, start_date := 4, low_date := 5,
         end_date := none, length_days := 2, recovery_days := none },
       { drawdown_pct := 1 / 5, start_date := 0, low_date := 2,
         end_date := some 4, length_days := 4, recovery_days := some 2 }] := by
  norm_num [find_top_drawdowns, dd_step, insertByPct, sortByPctDesc, List.enum,
    List.enumFrom, List.foldl, List.getD]

/-! ## Claim C7: annualized volatility and its fallback -/

/-- Counterexample to claim C7 as stated: the claim says the reported
volatility equals a fixed fallback constant whenever the daily-return
series has fewer than 2 observations, but the code (line 365) falls back
to 0.15 only for an empty series; for a singleton series the pandas
standard deviation is NaN (none) and so is the reported volatility, which
therefore differs between the two sub-2-observation inputs. -/
theorem claim_C7_counterexample :
    annualized_vol (fun x => x) [] = some (15 / 100)
    ∧ annualized_vol (fun x => x) [0] = none
    ∧ annualized_vol (fun x => x) [0] ≠ annualized_vol (fun x => x) [] := by
  refine ⟨?_, ?_, ?_⟩ <;> simp [annualized_vol, sampleStd]

/-- Claim C7 (amended): the reported annualized volatility is the sample
standard deviation of the daily-return series times the square root of 252
when the series has at least 2 observations; the fixed fallback constant
0.15 is returned exactly when the series is empty; with exactly one
observation the reported volatility is NaN (none), not the fallback. -/
theorem claim_C7_annualized_vol : ∀ (sq : ℚ → ℚ) (xs : List ℚ),
    (xs.length = 0 → annualized_vol sq xs = some (15 / 100))
    ∧ (xs.length = 1 → annualized_vol sq xs = none)
    ∧ (2 ≤ xs.length → annualized_vol sq xs = some (sq (sampleVar xs) * sq 252)) := by
  intro sq xs
  refine ⟨fun h => ?_, fun h => ?_, fun h => ?_⟩
  · simp [annualized_vol, sampleStd, h]
  · simp [annualized_vol, sampleStd, h]
  · rw [annualized_vol, if_pos (by omega), sampleStd, if_pos h]
    rfl

-- Witness for claim C7 at concrete inputs of length 0, 1 and 2.
theorem claim_C7_witness :
    annualized_vol (fun x => x) [] = some (15 / 100)
    ∧ annualized_vol (fun x => x) [5] = none
    ∧ annualized_vol (fun x => x) [1, 3] =
        some ((fun x : ℚ => x) (sampleVar [1, 3]) * (fun x : ℚ => x) 252) := by
  exact ⟨(claim_C7_annualized_vol (fun x => x) []).1 rfl,
         (claim_C7_annualized_vol (fun x => x) [5]).2.1 rfl,
         (claim_C7_annualized_vol (fun x => x) [1, 3]).2.2 (by norm_num)⟩

/-! ## Claim C8: beta and alpha degeneracy -/

/-- Counterexample to claim C8 as stated: with two paired observations and
a constant benchmark return series the benchmark variance is zero, and the
code (line 402) then reports beta = 1 rather than the covariance over the
variance: here the covariance and the variance are both 0, so the claimed
quotient is not 1 under any convention, and in float semantics it is NaN,
which the reported value 1 also differs from. -/
theorem claim_C8_counterexample :
    betaOf [0, 1] [1, 1] = 1
    ∧ sampleCov [0, 1] [1, 1] / sampleVar [1, 1] = 0
    ∧ betaOf [0, 1] [1, 1] ≠ sampleCov [0, 1] [1, 1] / sampleVar [1, 1] := by
  refine ⟨?_, ?_, ?_⟩ <;>
    norm_num [betaOf, sampleCov, sampleVar, listMean, List.take]

/-- Claim C8 (amended): with fewer than 2 paired daily-return observations
the reported beta is exactly 1 and the reported alpha exactly 0; with at
least 2 paired observations beta equals the sample covariance of the
paired (common-length-truncated) returns divided by the sample variance of
the benchmark returns whenever that variance is positive (with zero
variance the code defaults beta to 1 instead). -/
theorem claim_C8_beta_alpha : ∀ (port bench : List ℚ) (annRet benchAnn : ℚ),
    (min port.length bench.length < 2 →
      betaOf port bench = 1 ∧ alphaOf port bench annRet benchAnn = 0)
    ∧ (2 ≤ min port.length bench.length →
        0 < sampleVar (bench.take (min port.length bench.length)) →
        betaOf port bench =
          sampleCov (port.take (min port.length bench.length))
              (bench.take (min port.length bench.length))
            / sampleVar (bench.take (min port.length bench.length))) := by
  intro port bench annRet benchAnn
  constructor
  · intro h
    by_cases h1 : 0 < port.length ∧ 0 < bench.length
    · have h2 : ¬ 1 < min port.length bench.length := by omega
      constructor
      · rw [betaOf, if_pos h1, if_neg h2]
      · rw [alphaOf, if_pos h1, if_neg h2]
    · constructor
      · rw [betaOf, if_neg h1]
      · rw [alphaOf, if_neg h1]
  · intro h hv
    have h1 : 0 < port.length ∧ 0 < bench.length := by omega
    have h2 : 1 < min port.length bench.length := by omega
    rw [betaOf, if_pos h1, if_pos h2, if_pos hv]

-- Witness for claim C8: a degenerate pair and a genuine regression pair.
theorem claim_C8_witness :
    (betaOf [0] [0] = 1 ∧ alphaOf [0] [0] 7 9 = 0)
    ∧ betaOf [0, 2] [0, 4] =
        sampleCov ([(0 : ℚ), 2].take (min [(0 : ℚ), 2].length [(0 : ℚ), 4].length))
            ([(0 : ℚ), 4].take (min [(0 : ℚ), 2].length [(0 : ℚ), 4].length))
          / sampleVar ([(0 : ℚ), 4].take (min [(0 : ℚ), 2].length [(0 : ℚ), 4].length)) := by
  exact ⟨(claim_C8_beta_alpha [0] [0] 7 9).1 (by norm_num),
         (claim_C8_beta_alpha [0, 2] [0, 4] 0 0).2 (by norm_num)
           (by norm_num [sampleVar, listMean, List.take])⟩

/-! ## Claims C4 and C9: the regime transition policy -/

/-- Claim C4: the transition policy reports a change exactly when the
total confirming count exceeds 59, the argmax regime (Python max over the
fixed dict order) differs from the current regime, and its confirming
count exceeds its opposing regime's by strictly more than 2; in
particular, total at most 59 means no change, a spread of exactly 2 means
no change, and a spread of exactly 3 (with the other gates satisfied)
means a change. -/
theorem claim_C4_regime_gate : ∀ (row : GridDataRow) (cur : Regime),
    (∀ r : Regime, check_regime_change row cur = some r ↔
      (59 < row.sum_confirming_markets ∧ r = maxCandidate row
        ∧ maxCandidate row ≠ cur
        ∧ 2 < confirming row (maxCandidate row)
            - confirming row (opposing (maxCandidate row))))
    ∧ (row.sum_confirming_markets ≤ 59 → check_regime_change row cur = none)
    ∧ (confirming row (maxCandidate row)
          - confirming row (opposing (maxCandidate row)) = 2 →
        check_regime_change row cur = none)
    ∧ (59 < row.sum_confirming_markets → maxCandidate row ≠ cur →
        confirming row (maxCandidate row)
          - confirming row (opposing (maxCandidate row)) = 3 →
        check_regime_change row cur = some (maxCandidate row)) := by
  intro row cur
  unfold check_regime_change
  refine ⟨fun r => ?_, fun h => ?_, fun h => ?_, fun h1 h2 h3 => ?_⟩ <;>
    split_ifs with ha hb hc <;> simp_all <;> first | omega | exact eq_comm

/-- Row for the C4 witness: total confirming count 59, below the gate. -/
def c4RowLow : GridDataRow :=
  { date := 0, sum_confirming_markets := 59, goldilocks_confirming := 40,
    reflation_confirming := 1, inflation_confirming := 2,
    deflation_confirming := 3, market_regime := "GOLDILOCKS",
    risk_regime := "RISK ON", vams := [] }

/-- Row for the C4 witness: gate passed, candidate GOLDILOCKS, spread over
DEFLATION exactly 2. -/
def c4RowSpread2 : GridDataRow :=
  { date := 1, sum_confirming_markets := 100, goldilocks_confirming := 10,
    reflation_confirming := 2, inflation_confirming := 0,
    deflation_confirming := 8, market_regime := "GOLDILOCKS",
    risk_regime := "RISK ON", vams := [] }

/-- Row for the C4 witness: gate passed, candidate GOLDILOCKS, spread over
DEFLATION exactly 3. -/
def c4RowSpread3 : GridDataRow :=
  { date := 2, sum_confirming_markets := 100, goldilocks_confirming := 10,
    reflation_confirming := 2, inflation_confirming := 0,
    deflation_confirming := 7, market_regime := "GOLDILOCKS",
    risk_regime := "RISK ON", vams := [] }

-- Witness for claim C4: total 59 blocks, spread 2 blocks, spread 3 fires.
theorem claim_C4_witness :
    check_regime_change c4RowLow Regime.REFLATION = none
    ∧ check_regime_change c4RowSpread2 Regime.REFLATION = none
    ∧ check_regime_change c4RowSpread3 Regime.REFLATION
        = some (maxCandidate c4RowSpread3) := by
  have h1 := claim_C4_regime_gate c4RowLow Regime.REFLATION
  have h2 := claim_C4_regime_gate c4RowSpread2 Regime.REFLATION
  have h3 := claim_C4_regime_gate c4RowSpread3 Regime.REFLATION
  exact ⟨h1.2.1 (by decide), h2.2.2.1 (by decide),
         h3.2.2.2 (by decide) (by decide) (by decide)⟩

/-- Index of a regime in the fixed iteration order of the confirmings
dict: GOLDILOCKS, REFLATION, INFLATION, DEFLATION. -/
def regimeIdx : Regime → ℕ
  | .GOLDILOCKS => 0
  | .REFLATION => 1
  | .INFLATION => 2
  | .DEFLATION => 3

/-- The candidate picked by Python max is an argmax of the confirming
counts and, among tied argmaxes, the one earliest in the fixed iteration
order. -/
theorem maxCandidate_argmax (row : GridDataRow) :
    (∀ r : Regime, confirming row r ≤ confirming row (maxCandidate row))
    ∧ (∀ r : Regime, confirming row r = confirming row (maxCandidate row) →
        regimeIdx (maxCandidate row) ≤ regimeIdx r) := by
  unfold maxCandidate max_pick
  rcases lt_or_le (confirming row Regime.GOLDILOCKS) (confirming row Regime.REFLATION) with h1 | h1
  · rw [if_pos h1]
    rcases lt_or_le (confirming row Regime.REFLATION) (confirming row Regime.INFLATION) with h2 | h2
    · rw [if_pos h2]
      rcases lt_or_le (confirming row Regime.INFLATION) (confirming row Regime.DEFLATION) with h3 | h3
      · rw [if_pos h3]
        exact ⟨fun r => by cases r <;> omega,
               fun r => by cases r <;> intro h <;> first | decide | (exfalso; omega)⟩
      · rw [if_neg (not_lt.mpr h3)]
        exact ⟨fun r => by cases r <;> omega,
               fun r => by cases r <;> intro h <;> first | decide | (exfalso; omega)⟩
    · rw [if_neg (not_lt.mpr h2)]
      rcases lt_or_le (confirming row Regime.REFLATION) (confirming row Regime.DEFLATION) with h3 | h3
      · rw [if_pos h3]
        exact ⟨fun r => by cases r <;> omega,
               fun r => by cases r <;> intro h <;> first | decide | (exfalso; omega)⟩
      · rw [if_neg (not_lt.mpr h3)]
        exact ⟨fun r => by cases r <;> omega,
               fun r => by cases r <;> intro h <;> first | decide | (exfalso; omega)⟩
  · rw [if_neg (not_lt.mpr h1)]
    rcases lt_or_le (confirming row Regime.GOLDILOCKS) (confirming row Regime.INFLATION) with h2 | h2
    · rw [if_pos h2]
      rcases lt_or_le (confirming row Regime.INFLATION) (confirming row Regime.DEFLATION) with h3 | h3
      · rw [if_pos h3]
        exact ⟨fun r => by cases r <;> omega,
               fun r => by cases r <;> intro h <;> first | decide | (exfalso; omega)⟩
      · rw [if_neg (not_lt.mpr h3)]
        exact ⟨fun r => by cases r <;> omega,
               fun r => by cases r <;> intro h <;> first | decide | (exfalso; omega)⟩
    · rw [if_neg (not_lt.mpr h2)]
      rcases lt_or_le (confirming row Regime.GOLDILOCKS) (confirming row Regime.DEFLATION) with h3 | h3
      · rw [if_pos h3]
        exact ⟨fun r => by cases r <;> omega,
               fun r => by cases r <;> intro h <;> first | decide | (exfalso; omega)⟩
      · rw [if_neg (not_lt.mpr h3)]
        exact ⟨fun r => by cases r <;> omega,
               fun r => by cases r <;> intro h <;> first | decide | (exfalso; omega)⟩

/-- Claim C9: the transition policy is a pure, deterministic function of
the numeric fields of the daily record and the current regime -- its
output is unchanged under any variation of the record's other fields
(date, labels, vams) and it touches no portfolio state (its type takes
none); when several regimes tie for the highest confirming count, the
candidate is the first in the fixed order GOLDILOCKS, REFLATION,
INFLATION, DEFLATION (it is an argmax of minimal index in that order). -/
theorem claim_C9_policy_pure_tiebreak : ∀ (row row2 : GridDataRow) (cur : Regime),
    (row.sum_confirming_markets = row2.sum_confirming_markets →
      row.goldilocks_confirming = row2.goldilocks_confirming →
      row.reflation_confirming = row2.reflation_confirming →
      row.inflation_confirming = row2.inflation_confirming →
      row.deflation_confirming = row2.deflation_confirming →
      check_regime_change row cur = check_regime_change row2 cur)
    ∧ (∀ r : Regime, confirming row r ≤ confirming row (maxCandidate row))
    ∧ (∀ r : Regime, confirming row r = confirming row (maxCandidate row) →
        regimeIdx (maxCandidate row) ≤ regimeIdx r) := by
  intro row row2 cur
  refine ⟨fun hs hg hr hi hd => ?_, (maxCandidate_argmax row).1,
    (maxCandidate_argmax row).2⟩
  have hc : ∀ x : Regime, confirming row x = confirming row2 x := by
    intro x
    cases x <;> simp [confirming, hg, hr, hi, hd]
  simp only [check_regime_change, maxCandidate, max_pick, hs, hc]

/-- Concrete rows for the C9 witness: identical numeric fields, different
date, labels and vams. -/
def c9RowA : GridDataRow :=
  { date := 0, sum_confirming_markets := 100, goldilocks_confirming := 5,
    reflation_confirming := 5, inflation_confirming := 5,
    deflation_confirming := 5, market_regime := "GOLDILOCKS",
    risk_regime := "RISK ON", vams := [] }

/-- Second concrete row for the C9 witness. -/
def c9RowB : GridDataRow :=
  { date := 9, sum_confirming_markets := 100, goldilocks_confirming := 5,
    reflation_confirming := 5, inflation_confirming := 5,
    deflation_confirming := 5, market_regime := "DEFLATION",
    risk_regime := "RISK OFF", vams := [("XLK", 2)] }

-- Witness for claim C9: purity across the non-numeric fields, and the
-- tie-break on a four-way tie.
theorem claim_C9_witness :
    check_regime_change c9RowA Regime.REFLATION
      = check_regime_change c9RowB Regime.REFLATION
    ∧ confirming c9RowA Regime.DEFLATION
        ≤ confirming c9RowA (maxCandidate c9RowA)
    ∧ regimeIdx (maxCandidate c9RowA) ≤ regimeIdx Regime.DEFLATION := by
  have h := claim_C9_policy_pure_tiebreak c9RowA c9RowB Regime.REFLATION
  exact ⟨h.1 rfl rfl rfl rfl rfl, h.2.1 Regime.DEFLATION,
         h.2.2 Regime.DEFLATION (by decide)⟩

/-! ## Claim C2: per-trade self-financing -/

/-- Claim C2: every executed trade whose execution price equals the price
at which the affected position is currently marked preserves cash plus
marked position value plus reserve value, exactly for buys and for sells
leaving more than 0.001 shares, and up to the negligible-shares tolerance
(at most price times 0.001, the value of the dropped residual) for sells
that drop the position. -/
theorem claim_C2_trade_self_financing : ∀ (s : EngineState) (d : ℕ)
    (t : String) (sh pr shvP : ℚ) (reason : String),
    0 ≤ pr →
    ((∀ pos, lookupPos s.positions t = some pos → pos.current_price = pr) →
      markedValue (execute_trade s d "BUY" t sh pr reason) shvP
        = markedValue s shvP)
    ∧ (∀ pos, lookupPos s.positions t = some pos → pos.current_price = pr →
        0 ≤ sh → sh ≤ pos.shares →
        |markedValue (execute_trade s d "SELL" t sh pr reason) shvP
            - markedValue s shvP| ≤ pr * (1 / 1000)
        ∧ (1 / 1000 < pos.shares - sh →
            markedValue (execute_trade s d "SELL" t sh pr reason) shvP
              = markedValue s shvP)) := by
  intro s d t sh pr shvP reason hpr
  have hbuy : ("BUY" : String) = "BUY" := rfl
  have hsell : ¬ ("SELL" : String) = "BUY" := by decide
  constructor
  · intro hmark
    cases hl : lookupPos s.positions t with
    | none =>
        simp only [execute_trade, if_pos hbuy, if_true, hl, markedValue,
          mvSum_append, mvSum_cons, mvSum_nil, Position.market_value]
        ring
    | some old =>
        have hc := hmark old hl
        simp only [execute_trade, if_pos hbuy, if_true, hl, markedValue]
        rw [mvSum_replacePos _ hl]
        simp only [Position.market_value, hc]
        ring
  · intro pos hl hc hsh hshle
    by_cases hdrop : pos.shares - sh ≤ 1 / 1000
    · have hval : markedValue (execute_trade s d "SELL" t sh pr reason) shvP
          = s.cash + sh * pr + s.shv_position * shvP
            + (mvSum s.positions - pos.market_value) := by
        simp only [execute_trade, if_neg hsell, if_false, hl, if_pos hdrop,
          if_true, markedValue]
        rw [mvSum_removePos hl]
      have hmv : pos.market_value = pos.shares * pr := by
        rw [Position.market_value, hc]
      refine ⟨?_, fun hgt => absurd hgt (not_lt.mpr hdrop)⟩
      rw [hval, hmv, markedValue, abs_le]
      have key : (pos.shares - sh) * pr ≤ (1 / 1000) * pr :=
        mul_le_mul_of_nonneg_right hdrop hpr
      have key2 : 0 ≤ (pos.shares - sh) * pr :=
        mul_nonneg (by linarith) hpr
      constructor <;> nlinarith
    · have hval : markedValue (execute_trade s d "SELL" t sh pr reason) shvP
          = markedValue s shvP := by
        simp only [execute_trade, if_neg hsell, if_false, hl, if_neg hdrop,
          markedValue]
        rw [mvSum_replacePos _ hl]
        simp only [Position.market_value, hc]
        ring
      refine ⟨?_, fun _ => hval⟩
      rw [hval, sub_self, abs_zero]
      positivity

/-- Concrete ledger for the C2 witness. -/
def c2State : EngineState :=
  { current_regime := .REFLATION,
    positions := [{ ticker := "A", shares := 1, avg_cost := 1,
                    current_price := 2 }],
    cash := 0, shv_position := 3, trades := [] }

-- Witness for claim C2: a buy into the marked position and a
-- position-dropping sell, both at the marked price 2.
theorem claim_C2_witness :
    markedValue (execute_trade c2State 0 "BUY" "A" 4 2 "w") 7
      = markedValue c2State 7
    ∧ |markedValue (execute_trade c2State 0 "SELL" "A" 1 2 "w") 7
        - markedValue c2State 7| ≤ 2 * (1 / 1000) := by
  have h := claim_C2_trade_self_financing c2State 0 "A" 4 2 7 "w" (by norm_num)
  have h2 := claim_C2_trade_self_financing c2State 0 "A" 1 2 7 "w" (by norm_num)
  refine ⟨h.1 ?_, ?_⟩
  · intro pos hp
    simp only [c2State, lookupPos, if_pos rfl, if_true, Option.some.injEq] at hp
    rw [← hp]
  · have hl : lookupPos c2State.positions "A"
        = some { ticker := "A", shares := 1, avg_cost := 1, current_price := 2 } := by
      simp [c2State, lookupPos]
    exact (h2.2 _ hl rfl (by norm_num) (by norm_num)).1

/-! ## Claim C3: the daily valuation formula -/

/-- Positions without a truthy fresh quote contribute nothing to the
valuation: the day-value sum equals the sum over the freshly quoted
positions only of shares times the fresh price. -/
theorem day_value_sum_filter (price : PriceFn) (d : ℕ) :
    ∀ l : List Position,
      (l.map (position_day_value price d)).sum
        = ((l.filter (has_fresh_quote price d)).map
            (fun p => p.shares * ((price p.ticker d).getD 0))).sum := by
  intro l
  induction l with
  | nil => rfl
  | cons p ps ih =>
      cases hq : price p.ticker d with
      | none => simp [position_day_value, has_fresh_quote, hq, ih]
      | some q =>
          by_cases h0 : q = 0
          · simp [position_day_value, has_fresh_quote, hq, h0, ih]
          · simp [position_day_value, has_fresh_quote, hq, h0, ih]

/-- Claim C3 (amended): the daily valuation equals cash, plus the reserve
(at the day's SHV price, fixed fallback 110 when unavailable) when the
reserve holding is positive, plus the sum over only those open positions
that have a truthy fresh quote of shares times the fresh price; open
positions without a fresh quote that day are omitted from the total, not
valued at their last known price. -/
theorem claim_C3_valuation : ∀ (price : PriceFn) (s : EngineState) (d : ℕ),
    (calculate_portfolio_value price s d
      = s.cash
        + (if 0 < s.shv_position
            then s.shv_position * shv_price_on price d else 0)
        + ((s.positions.filter (has_fresh_quote price d)).map
            (fun p => p.shares * ((price p.ticker d).getD 0))).sum)
    ∧ (price "SHV" d = none → shv_price_on price d = 110) := by
  intro price s d
  constructor
  · rw [calculate_portfolio_value, day_value_sum_filter]
  · intro h
    simp [shv_price_on, h]

/-- Price table for the C3 counterexample: no instrument has a quote. -/
def c3Price : PriceFn := fun _ _ => none

/-- Ledger for the C3 counterexample: one open position of 2 shares last
marked at 30, cash 50, no reserve. -/
def c3State : EngineState :=
  { current_regime := .REFLATION,
    positions := [{ ticker := "AAA", shares := 2, avg_cost := 10,
                    current_price := 30 }],
    cash := 50, shv_position := 0, trades := [] }

/-- Counterexample to claim C3 as stated: with no fresh quote for the open
position, the claim (and the spec's valuePortfolio formula, modelled
verbatim as spec_valuation_model) says the position is valued at its last
known price 30, giving 50 + 2 * 30 = 110; the code values it at nothing
and returns 50, omitting the position from the total. -/
theorem claim_C3_counterexample :
    calculate_portfolio_value c3Price c3State 0 = 50
    ∧ spec_valuation_model c3Price c3State 0 = 110
    ∧ calculate_portfolio_value c3Price c3State 0
        ≠ spec_valuation_model c3Price c3State 0 := by
  refine ⟨?_, ?_, ?_⟩ <;>
    norm_num [calculate_portfolio_value, spec_valuation_model, c3Price,
      c3State, position_day_value, shv_price_on]

-- Witness for claim C3 at the concrete no-quote input, including the
-- reserve-price fallback clause.
theorem claim_C3_witness :
    calculate_portfolio_value c3Price c3State 0
      = c3State.cash
        + (if 0 < c3State.shv_position
            then c3State.shv_position * shv_price_on c3Price 0 else 0)
        + ((c3State.positions.filter (has_fresh_quote c3Price 0)).map
            (fun p => p.shares * ((c3Price p.ticker 0).getD 0))).sum
    ∧ shv_price_on c3Price 0 = 110 := by
  exact ⟨(claim_C3_valuation c3Price c3State 0).1,
         (claim_C3_valuation c3Price c3State 0).2 rfl⟩

/-! ## Loop lemmas for liquidation, allocation and reinvestment -/

/-- Every position in the state is marked exactly at its fetched price. -/
def priced_ok (price : PriceFn) (d : ℕ) (s : EngineState) : Prop :=
  ∀ p ∈ s.positions, price p.ticker d = some p.current_price

theorem mark_position_ticker (price : PriceFn) (d : ℕ) (p : Position) :
    (mark_position price d p).ticker = p.ticker := by
  unfold mark_position
  cases price p.ticker d with
  | none => rfl
  | some q => dsimp only; split_ifs <;> rfl

theorem sell_all_loop_clears (price : PriceFn) (d : ℕ) (reason : String) :
    ∀ (l : List Position) (s : EngineState), s.positions = l →
      (sell_all_loop price d reason l s).positions = [] := by
  intro l
  induction l with
  | nil => intro s hs; simpa [sell_all_loop] using hs
  | cons p ps ih =>
      intro s hs
      rw [sell_all_loop]
      apply ih
      have hlook : lookupPos s.positions p.ticker = some p := by
        rw [hs, lookupPos, if_pos rfl]
      have hsub : p.shares - p.shares ≤ 1 / 1000 := by
        rw [sub_self]; norm_num
      simp only [execute_trade, if_neg (by decide : ¬ ("SELL" : String) = "BUY"),
        if_false, hlook, if_pos hsub, if_true]
      rw [hs, removePos, if_pos rfl]

theorem sell_all_loop_shv (price : PriceFn) (d : ℕ) (reason : String) :
    ∀ (l : List Position) (s : EngineState),
      (sell_all_loop price d reason l s).shv_position = s.shv_position := by
  intro l
  induction l with
  | nil => intro s; rfl
  | cons p ps ih => intro s; rw [sell_all_loop, ih, execute_trade_shv]

theorem alloc_buys_shv (price : PriceFn) (d : ℕ) (cap : ℚ) (reason : String) :
    ∀ (l : List (String × ℚ)) (s : EngineState),
      (alloc_buys price d cap reason l s).shv_position = s.shv_position := by
  intro l
  induction l with
  | nil => intro s; rfl
  | cons tw rest ih =>
      intro s
      rw [alloc_buys, ih]
      split_ifs with h1
      · rfl
      · cases hq : price tw.1 d with
        | none => rfl
        | some p =>
            dsimp only
            split_ifs with h2 h3
            · rw [execute_trade_shv]
            · rfl
            · rfl

theorem reinvest_loop_shv (price : PriceFn) (d : ℕ) (rc te : ℚ) :
    ∀ (l : List Position) (s : EngineState),
      (reinvest_loop price d rc te l s).shv_position = s.shv_position := by
  intro l
  induction l with
  | nil => intro s; rfl
  | cons p ps ih =>
      intro s
      rw [reinvest_loop, ih]
      cases hq : price p.ticker d with
      | none => rfl
      | some pr =>
          dsimp only
          split_ifs with h0
          · rfl
          · rw [execute_trade_shv]

/-- A buy at the fetched quote preserves cash plus marked position value
and keeps every position marked at its fetched price. -/
theorem buy_at_quote_conserve (price : PriceFn) (d : ℕ) (s : EngineState)
    (t : String) (sh p : ℚ) (reason : String)
    (hok : priced_ok price d s) (hq : price t d = some p) :
    (execute_trade s d "BUY" t sh p reason).cash
        + mvSum (execute_trade s d "BUY" t sh p reason).positions
      = s.cash + mvSum s.positions
    ∧ priced_ok price d (execute_trade s d "BUY" t sh p reason) := by
  have hbuy : ("BUY" : String) = "BUY" := rfl
  cases hl : lookupPos s.positions t with
  | none =>
      constructor
      · simp only [execute_trade, if_pos hbuy, if_true, hl, mvSum_append,
          mvSum_cons, mvSum_nil, Position.market_value]
        ring
      · intro q hq2
        simp only [execute_trade, if_pos hbuy, if_true, hl] at hq2
        rcases List.mem_append.mp hq2 with h | h
        · exact hok q h
        · simp only [List.mem_singleton] at h
          subst h
          simpa using hq
  | some old =>
      have hc : old.current_price = p := by
        have hm := hok old (lookupPos_mem hl).1
        rw [(lookupPos_mem hl).2, hq] at hm
        exact (Option.some.inj hm).symm
      constructor
      · simp only [execute_trade, if_pos hbuy, if_true, hl]
        rw [mvSum_replacePos _ hl]
        simp only [Position.market_value, hc]
        ring
      · intro q hq2
        simp only [execute_trade, if_pos hbuy, if_true, hl] at hq2
        rcases mem_replacePos hq2 with h | h
        · exact hok q h
        · subst h
          simpa using hq

theorem alloc_buys_conserve (price : PriceFn) (d : ℕ) (cap : ℚ) (reason : String) :
    ∀ (l : List (String × ℚ)) (s : EngineState), priced_ok price d s →
      (alloc_buys price d cap reason l s).cash
          + mvSum (alloc_buys price d cap reason l s).positions
        = s.cash + mvSum s.positions
      ∧ priced_ok price d (alloc_buys price d cap reason l s) := by
  intro l
  induction l with
  | nil => intro s hok; exact ⟨rfl, hok⟩
  | cons tw rest ih =>
      intro s hok
      rw [alloc_buys]
      split_ifs with h1
      · exact ih s hok
      · cases hq : price tw.1 d with
        | none => exact ih s hok
        | some p =>
            dsimp only
            split_ifs with h2 h3
            · have hb := buy_at_quote_conserve price d s tw.1
                (cap * tw.2 / p) p reason hok hq
              have := ih _ hb.2
              exact ⟨by rw [this.1, hb.1], this.2⟩
            · exact ih s hok
            · exact ih s hok

/-- The sublist of the trade log concerning the reserve instrument. -/
def tradesOnSHV (s : EngineState) : List Trade :=
  s.trades.filter (fun tr => tr.ticker == "SHV")

theorem execute_trade_tradesOnSHV {t : String} (h : t ≠ "SHV")
    (s : EngineState) (d : ℕ) (a : String) (sh pr : ℚ) (r : String) :
    tradesOnSHV (execute_trade s d a t sh pr r) = tradesOnSHV s := by
  unfold tradesOnSHV
  rw [execute_trade_trades, List.filter_append]
  simp [h]

theorem sell_all_loop_tradesOnSHV (price : PriceFn) (d : ℕ) (reason : String) :
    ∀ (l : List Position) (s : EngineState),
      "SHV" ∉ l.map Position.ticker →
      tradesOnSHV (sell_all_loop price d reason l s) = tradesOnSHV s := by
  intro l
  induction l with
  | nil => intro s _; rfl
  | cons p ps ih =>
      intro s hni
      simp only [List.map_cons, List.mem_cons] at hni
      push_neg at hni
      rw [sell_all_loop, ih _ hni.2, execute_trade_tradesOnSHV (Ne.symm hni.1)]

theorem alloc_buys_tradesOnSHV (price : PriceFn) (d : ℕ) (cap : ℚ) (reason : String) :
    ∀ (l : List (String × ℚ)) (s : EngineState),
      "SHV" ∉ l.map Prod.fst →
      tradesOnSHV (alloc_buys price d cap reason l s) = tradesOnSHV s := by
  intro l
  induction l with
  | nil => intro s _; rfl
  | cons tw rest ih =>
      intro s hni
      simp only [List.map_cons, List.mem_cons] at hni
      push_neg at hni
      rw [alloc_buys, ih _ hni.2]
      split_ifs with h1
      · rfl
      · cases hq : price tw.1 d with
        | none => rfl
        | some p =>
            dsimp only
            split_ifs with h2 h3
            · rw [execute_trade_tradesOnSHV (Ne.symm hni.1)]
            · rfl
            · rfl

theorem reinvest_loop_tradesOnSHV (price : PriceFn) (d : ℕ) (rc te : ℚ) :
    ∀ (l : List Position) (s : EngineState),
      "SHV" ∉ l.map Position.ticker →
      tradesOnSHV (reinvest_loop price d rc te l s) = tradesOnSHV s := by
  intro l
  induction l with
  | nil => intro s _; rfl
  | cons p ps ih =>
      intro s hni
      simp only [List.map_cons, List.mem_cons] at hni
      push_neg at hni
      rw [reinvest_loop, ih _ hni.2]
      cases hq : price p.ticker d with
      | none => rfl
      | some pr =>
          dsimp only
          split_ifs with h0
          · rfl
          · rw [execute_trade_tradesOnSHV (Ne.symm hni.1)]

theorem liquidate_positions_clear (price : PriceFn) (s : EngineState)
    (d : ℕ) (reason : String) :
    (liquidate_all price s d reason).positions = [] := by
  rw [liquidate_all]
  have h1 : (sell_all_loop price d reason s.positions s).positions = [] :=
    sell_all_loop_clears price d reason s.positions s rfl
  split_ifs <;> simpa using h1

theorem liquidate_shv_zero (price : PriceFn) (s : EngineState)
    (d : ℕ) (reason : String) (h : 0 ≤ s.shv_position) :
    (liquidate_all price s d reason).shv_position = 0 := by
  rw [liquidate_all]
  have hs := sell_all_loop_shv price d reason s.positions s
  split_ifs with hpos
  · rfl
  · rw [hs]
    rw [hs] at hpos
    linarith

theorem liquidate_tradesOnSHV (price : PriceFn) (s : EngineState)
    (d : ℕ) (reason : String) (h : "SHV" ∉ s.positions.map Position.ticker) :
    tradesOnSHV (liquidate_all price s d reason) = tradesOnSHV s := by
  rw [liquidate_all]
  have hl := sell_all_loop_tradesOnSHV price d reason s.positions s h
  split_ifs
  · simpa [tradesOnSHV] using hl
  · exact hl

/-- Unfolding of the risk-off handler into its allocation call on the
post-liquidation, reserve-funded, cash-overwritten state. -/
theorem handle_risk_off_eq (price : PriceFn)
    (profile : Regime → List (String × ℚ)) (s : EngineState) (d : ℕ)
    (newRegime : Regime) :
    handle_risk_off_transition price profile s d newRegime
      = alloc_buys price d (calculate_portfolio_value price s d * (3 / 4))
          ("Allocated to " ++ regimeName newRegime) (profile newRegime)
          { liquidate_all price
              { s with positions := s.positions.map (mark_position price d) } d
              ("Regime change to " ++ regimeName newRegime) with
            shv_position := calculate_portfolio_value price s d * (1 / 4)
              / shv_price_on price d,
            cash := calculate_portfolio_value price s d * (3 / 4) } := rfl

/-- Allocating out of an all-cash (no-positions) state preserves cash plus
marked position value and the reserve share count. -/
theorem alloc_on_empty (price : PriceFn) (d : ℕ) (cap : ℚ) (reason : String)
    (l : List (String × ℚ)) (X : EngineState) (hX : X.positions = []) :
    (alloc_buys price d cap reason l X).cash
        + mvSum (alloc_buys price d cap reason l X).positions = X.cash
    ∧ (alloc_buys price d cap reason l X).shv_position = X.shv_position := by
  have hok : priced_ok price d X := by
    intro p hp
    rw [hX] at hp
    exact absurd hp (List.not_mem_nil p)
  have hc := alloc_buys_conserve price d cap reason l X hok
  exact ⟨by rw [hc.1, hX, mvSum_nil, add_zero],
         alloc_buys_shv price d cap reason l X⟩

/-! ## Claim C5: the risk-off 25/75 split -/

/-- Claim C5: for any transition into a risk-off regime, with V the total
portfolio value computed immediately before the transition, the state
immediately after the transition holds a reserve position worth exactly
V/4 at that day's (fallback-completed) SHV price, and the remaining
capital -- the allocated equity at its purchase marks plus whatever cash
the allocation loop left unspent -- is exactly 3V/4. -/
theorem claim_C5_risk_off_split : ∀ (price : PriceFn)
    (profile : Regime → List (String × ℚ)) (s : EngineState) (d : ℕ)
    (newRegime : Regime),
    (handle_risk_off_transition price profile s d newRegime).shv_position
        * shv_price_on price d
      = calculate_portfolio_value price s d * (1 / 4)
    ∧ (handle_risk_off_transition price profile s d newRegime).cash
        + mvSum (handle_risk_off_transition price profile s d newRegime).positions
      = calculate_portfolio_value price s d * (3 / 4) := by
  intro price profile s d newRegime
  rw [handle_risk_off_eq]
  have hpos := liquidate_positions_clear price
    { s with positions := s.positions.map (mark_position price d) } d
    ("Regime change to " ++ regimeName newRegime)
  have h := alloc_on_empty price d
    (calculate_portfolio_value price s d * (3 / 4))
    ("Allocated to " ++ regimeName newRegime) (profile newRegime)
    { liquidate_all price
        { s with positions := s.positions.map (mark_position price d) } d
        ("Regime change to " ++ regimeName newRegime) with
      shv_position := calculate_portfolio_value price s d * (1 / 4)
        / shv_price_on price d,
      cash := calculate_portfolio_value price s d * (3 / 4) } hpos
  constructor
  · rw [h.2]
    exact div_mul_cancel₀ _ (shv_price_on_ne_zero price d)
  · rw [h.1]

/-! ## Claim C10: reserve conversions never reach the trade log -/

/-- The XLK VAMS exit rule leaves the reserve-instrument sublist of the
trade log unchanged and zeroes the reserve share count. -/
theorem xlk_exit_frame (price : PriceFn) (s : EngineState) (d : ℕ)
    (h : "SHV" ∉ s.positions.map Position.ticker) :
    tradesOnSHV (xlk_vams_exit_step price s d) = tradesOnSHV s
    ∧ (0 ≤ s.shv_position → (xlk_vams_exit_step price s d).shv_position = 0) := by
  simp only [xlk_vams_exit_step]
  split_ifs with h1 h2
  · constructor
    · exact reinvest_loop_tradesOnSHV price d _ _ s.positions _ h
    · intro _
      rw [reinvest_loop_shv]
  · exact ⟨rfl, fun _ => rfl⟩
  · exact ⟨rfl, fun h0 => le_antisymm (not_lt.mp h1) h0⟩

/-- Claim C10 (amended): none of the three reserve conversions -- the
reserve sale inside full liquidation, the reserve liquidation in the
deflation-exit rule, and the 25 percent reserve purchase during a
risk-off transition -- appends a reserve-instrument trade to the log
(the SHV sublist of the trade log is unchanged), while each mutates the
reserve share count (to zero for the two liquidations, to value/4 over
the SHV price for the purchase); the isolated reserve sale credits cash
with the reserve proceeds without logging any trade at all, but the
deflation-exit conversion, contrary to the original claim, leaves cash
untouched (its proceeds are dropped -- engine.py lines 295-298 never
credit returned_cash, the same slip recorded under claim C1). -/
theorem claim_C10_reserve_conversions_unlogged : ∀ (price : PriceFn)
    (profile : Regime → List (String × ℚ)) (s : EngineState) (d : ℕ)
    (newRegime : Regime) (reason : String),
    ("SHV" ∉ s.positions.map Position.ticker →
      tradesOnSHV (liquidate_all price s d reason) = tradesOnSHV s
      ∧ (0 ≤ s.shv_position →
          (liquidate_all price s d reason).shv_position = 0))
    ∧ ("SHV" ∉ s.positions.map Position.ticker →
      tradesOnSHV (xlk_vams_exit_step price s d) = tradesOnSHV s
      ∧ (0 ≤ s.shv_position →
          (xlk_vams_exit_step price s d).shv_position = 0))
    ∧ (s.positions = [] →
      (xlk_vams_exit_step price s d).cash = s.cash)
    ∧ ("SHV" ∉ s.positions.map Position.ticker →
       "SHV" ∉ (profile newRegime).map Prod.fst →
      tradesOnSHV (handle_risk_off_transition price profile s d newRegime)
          = tradesOnSHV s
      ∧ (handle_risk_off_transition price profile s d newRegime).shv_position
          = calculate_portfolio_value price s d * (1 / 4)
            / shv_price_on price d)
    ∧ (s.positions = [] → 0 < s.shv_position →
      (liquidate_all price s d reason).trades = s.trades
      ∧ (liquidate_all price s d reason).cash
          = s.cash + s.shv_position * shv_price_on price d) := by
  intro price profile s d newRegime reason
  refine ⟨fun h => ⟨liquidate_tradesOnSHV price s d reason h,
            fun h0 => liquidate_shv_zero price s d reason h0⟩,
          fun h => xlk_exit_frame price s d h,
          fun hpos => ?_,
          fun h hp => ?_, fun hpos hshv => ?_⟩
  · simp only [xlk_vams_exit_step]
    split_ifs with h1 h2
    · simp only [hpos, mvSum_nil] at h2
      exact absurd h2 (lt_irrefl 0)
    · rfl
    · rfl
  · rw [handle_risk_off_eq]
    have hmark : "SHV" ∉
        (s.positions.map (mark_position price d)).map Position.ticker := by
      rw [List.map_map]
      have hcomp : (Position.ticker ∘ mark_position price d) = Position.ticker := by
        funext p
        exact mark_position_ticker price d p
      rw [hcomp]
      exact h
    constructor
    · rw [alloc_buys_tradesOnSHV price d _ _ (profile newRegime) _ hp]
      exact liquidate_tradesOnSHV price
        { s with positions := s.positions.map (mark_position price d) } d
        ("Regime change to " ++ regimeName newRegime) hmark
    · rw [alloc_buys_shv]
  · rw [liquidate_all, hpos, sell_all_loop, if_pos hshv]
    exact ⟨rfl, rfl⟩

/-- Price table for the C10 witness. -/
def c10Price : PriceFn := fun t _ => if t = "SHV" then some 110 else none

/-- Ledger for the C10 witness: no open positions, one reserve share. -/
def c10State : EngineState :=
  { current_regime := .DEFLATION, positions := [], cash := 5,
    shv_position := 1, trades := [] }

/-- Empty allocation profile for the C10 witness. -/
def c10Profile : Regime → List (String × ℚ) := fun _ => []

/-- Counterexample to claim C10 as stated: the claim says the reserve
liquidation in the deflation-exit rule mutates the reserve share count
and cash.  On a concrete ledger with one reserve share (worth 110 at the
day's SHV price) and no open positions, the deflation-exit step zeroes
the reserve share count and appends no trade, yet leaves cash exactly
unchanged at 5: the code never credits the liquidation proceeds to cash
(engine.py lines 295-298), so the conversion does not mutate cash. -/
theorem claim_C10_counterexample :
    c10State.shv_position = 1
    ∧ (xlk_vams_exit_step c10Price c10State 0).shv_position = 0
    ∧ (xlk_vams_exit_step c10Price c10State 0).trades = c10State.trades
    ∧ (xlk_vams_exit_step c10Price c10State 0).cash = c10State.cash := by
  refine ⟨rfl, ?_, ?_, ?_⟩ <;>
    norm_num [xlk_vams_exit_step, c10State, mvSum]

-- Witness for claim C10 at a concrete all-cash-plus-reserve ledger.
theorem claim_C10_witness :
    tradesOnSHV (liquidate_all c10Price c10State 0 "w") = tradesOnSHV c10State
    ∧ (liquidate_all c10Price c10State 0 "w").shv_position = 0
    ∧ tradesOnSHV (xlk_vams_exit_step c10Price c10State 0) = tradesOnSHV c10State
    ∧ (xlk_vams_exit_step c10Price c10State 0).shv_position = 0
    ∧ (xlk_vams_exit_step c10Price c10State 0).cash = c10State.cash
    ∧ tradesOnSHV (handle_risk_off_transition c10Price c10Profile c10State 0
          Regime.INFLATION) = tradesOnSHV c10State
    ∧ (handle_risk_off_transition c10Price c10Profile c10State 0
          Regime.INFLATION).shv_position
        = calculate_portfolio_value c10Price c10State 0 * (1 / 4)
          / shv_price_on c10Price 0
    ∧ (liquidate_all c10Price c10State 0 "w").trades = c10State.trades
    ∧ (liquidate_all c10Price c10State 0 "w").cash
        = c10State.cash + c10State.shv_position * shv_price_on c10Price 0 := by
  have h := claim_C10_reserve_conversions_unlogged c10Price c10Profile c10State
    0 Regime.INFLATION "w"
  have hni : "SHV" ∉ c10State.positions.map Position.ticker := by
    simp [c10State]
  have hal : "SHV" ∉ (c10Profile Regime.INFLATION).map Prod.fst := by
    simp [c10Profile]
  have hsh : (0 : ℚ) ≤ c10State.shv_position := by
    norm_num [c10State]
  have hpos : (0 : ℚ) < c10State.shv_position := by
    norm_num [c10State]
  exact ⟨(h.1 hni).1, (h.1 hni).2 hsh, (h.2.1 hni).1, (h.2.1 hni).2 hsh,
    h.2.2.1 rfl,
    (h.2.2.2.1 hni hal).1, (h.2.2.2.1 hni hal).2,
    (h.2.2.2.2 rfl hpos).1, (h.2.2.2.2 rfl hpos).2⟩

end PGRB
